import Mathlib

/-!
Verification of the pueue daemon's message dispatcher and its surrounding
task-queue semantics.

The dispatcher `handle_message` and the helpers `reset`, `get_status`,
`ok_or_failure_message`, and the constant `SENDER_ERR` are embedded from
`src/pueue/src/daemon/network/message_handler/mod.rs`.  The individual
handler bodies (`add.rs`, `clean.rs`, ...), the state store, the persistence
layer, and the scheduler loop are not part of the provided sources; they are
modelled from the specification, as marked on each definition.
-/

namespace Pueue

/-- Result of a finished task, mirroring `TaskResult`. -/
inductive TaskResult where
  | success
  | failed (code : Int)
  | failedToSpawn (reason : String)
  | killed
  | dependencyFailed
deriving DecidableEq

/-- Status recorded while a task is being edited.  Modelled from the spec:
the editing marker is part of task status and is only ever entered from
`Queued` or `Stashed`, so it records which of the two it came from. -/
inductive PrevStatus where
  | queued
  | stashed (enqueueAt : Option Nat)
deriving DecidableEq

/-- Task status, mirroring `TaskStatus`:
`Queued | Stashed{enqueue_at?} | Locked | Running | Paused | Done{result}`
plus the editing marker described in the design notes. -/
inductive TaskStatus where
  | queued
  | stashed (enqueueAt : Option Nat)
  | locked
  | running
  | paused
  | done (r : TaskResult)
  | editing (prev : PrevStatus)
deriving DecidableEq

/-- The status an editing task returns to. -/
def PrevStatus.toStatus : PrevStatus → TaskStatus
  | .queued => .queued
  | .stashed e => .stashed e

/-- A task row, mirroring the `Task` entity of the data model. -/
structure Task where
  id : Nat
  command : String
  path : String
  envs : List (String × String)
  group : String
  status : TaskStatus
  dependencies : List Nat
  label : Option String
  createdAt : Nat
  startedAt : Option Nat
  doneAt : Option Nat
deriving DecidableEq

/-- Run state of a group. -/
inductive GroupStatus where
  | running
  | paused
deriving DecidableEq

/-- A group: parallel slot limit and run state. -/
structure Group where
  parallelLimit : Nat
  status : GroupStatus
deriving DecidableEq

/-- The daemon state: tasks, groups (unique names), next task id. -/
structure State where
  tasks : List Task
  groups : List (String × Group)
  nextId : Nat
deriving DecidableEq

/-- Selection of tasks targeted by start/pause/kill, mirroring
`TaskSelection::{TaskIds, Group, All}`. -/
inductive TaskSelection where
  | taskIds (ids : List Nat)
  | group (g : String)
  | all
deriving DecidableEq

/-- Payload of an `Add` request, mirroring `AddMessage`. -/
structure AddMessage where
  command : String
  path : String
  envs : List (String × String)
  group : String
  dependencies : List Nat
  label : Option String
  stashed : Bool
  enqueueAt : Option Nat
  startImmediately : Bool
deriving DecidableEq

/-- Payload of a `Group` request, mirroring `GroupMessage`. -/
inductive GroupMessage where
  | add (name : String) (parallelTasks : Option Nat)
  | remove (name : String)
  | list
deriving DecidableEq

/-- The tagged message union of requests and responses, mirroring
`pueue_lib::network::message::Message`.  The constructors through `status`
are the request variants matched by `handle_message`; the remaining
constructors are response and streaming variants, which fall into the
dispatcher's wildcard arm. -/
inductive Message where
  | add (m : AddMessage)
  | clean (successfulOnly : Bool) (group : Option String)
  | edit (taskId : Nat) (command : String)
  | editRequest (taskId : Nat)
  | editRestore (taskId : Nat)
  | enqueue (taskIds : List Nat) (enqueueAt : Option Nat)
  | group (m : GroupMessage)
  | kill (sel : TaskSelection) (signal : Option Nat)
  | log (taskIds : List Nat) (lines : Option Nat)
  | parallel (group : String) (parallelTasks : Nat)
  | pause (sel : TaskSelection)
  | remove (taskIds : List Nat)
  | reset (children : Bool)
  | restart (taskIds : List Nat)
  | send (taskId : Nat) (input : String)
  | start (sel : TaskSelection)
  | stash (taskIds : List Nat)
  | switch (taskId1 : Nat) (taskId2 : Nat)
  | status
  | success (msg : String)
  | failure (msg : String)
  | statusResponse (state : State)
  | logResponse (taskIds : List Nat)
  | editResponse (taskId : Nat) (command : String)
  | stream (chunk : String)
  | streamRequest (taskId : Option Nat)
deriving DecidableEq

/-- Result of dispatching one request: the state after the handler ran, the
control messages sent to the scheduler over the channel, and the response
returned to the client. -/
structure Dispatch where
  state : State
  sent : List Message
  response : Message
deriving DecidableEq

/-- Mirrors `response_helper::create_success_message`. -/
def create_success_message (msg : String) : Message := Message.success msg

/-- Mirrors `response_helper::create_failure_message`. -/
def create_failure_message (msg : String) : Message := Message.failure msg

/-- Mirrors `pub static SENDER_ERR` in `message_handler/mod.rs`. -/
def SENDER_ERR : String := "Failed to send message to task handler thread"

/-- Embeds `ok_or_failure_message`: converts a persistence result into
either the inner value or the failure response built from the error. -/
def ok_or_failure_message {T : Type} (result : Except String T) : Except Message T :=
  match result with
  | .ok inner => .ok inner
  | .error error => .error (create_failure_message ("Failed to save state. This is a bug: " ++ error))

/-- Modelled from the spec: every mutating handler first applies its mutation
to the in-memory state and then persists via the `ok_or_return_failure_message!`
macro, which on a persistence error returns the failure response early while
the already-applied mutation stays in memory. -/
def persistAndRespond (persistResult : Except String Unit) (mutatedState : State)
    (onOk : Message) : State × Message :=
  match ok_or_failure_message persistResult with
  | .ok _ => (mutatedState, onOk)
  | .error err => (mutatedState, err)

/-- Group lookup by name in an association list. -/
def hasGroupIn (groups : List (String × Group)) (g : String) : Bool :=
  groups.any (fun p => p.1 == g)

/-- Group membership test on a state. -/
def hasGroup (s : State) (g : String) : Bool := hasGroupIn s.groups g

/-- Group lookup returning the group value. -/
def findGroupIn (groups : List (String × Group)) (g : String) : Option Group :=
  (groups.find? (fun p => p.1 == g)).map Prod.snd

/-- Task lookup by id. -/
def findTask (ts : List Task) (id : Nat) : Option Task :=
  ts.find? (fun t => t.id == id)

/-- True for the statuses occupying a parallel slot (`Running`, `Paused`). -/
def isRP : TaskStatus → Bool
  | .running => true
  | .paused => true
  | _ => false

/-- True for finished tasks. -/
def isDone : TaskStatus → Bool
  | .done _ => true
  | _ => false

/-- The number of tasks of group `g` occupying a parallel slot. -/
def countRP (ts : List Task) (g : String) : Nat :=
  (ts.filter (fun t => t.group == g && isRP t.status)).length

/-- Validity of a task selection: the referenced group or task ids exist. -/
def selValid (s : State) : TaskSelection → Bool
  | .taskIds ids => ids.all (fun i => (findTask s.tasks i).isSome)
  | .group g => hasGroup s g
  | .all => true

/-- Initial status of a freshly added task, as implied by the inputs:
`Stashed` when requested or given a release time, `Locked` when it has
dependencies, `Queued` otherwise. -/
def initialStatus (m : AddMessage) : TaskStatus :=
  if m.stashed || m.enqueueAt.isSome then .stashed m.enqueueAt
  else if m.dependencies.isEmpty then .queued
  else .locked

/-- Dependencies must reference existing task ids.  Since the new task's id
is fresh, this also rules out dependency cycles through the new task. -/
def depsValid (s : State) (deps : List Nat) : Bool :=
  deps.all (fun d => (findTask s.tasks d).isSome)

/-- Modelled from the spec: the `Add` handler (`add.rs` is not in the
sources) validates command, group, and dependencies, assigns the next id,
inserts the task, and on `start_immediately` sends an explicit start for the
new id to the scheduler. -/
def add_task (m : AddMessage) (s : State) : Dispatch :=
  if m.command == "" then
    ⟨s, [], create_failure_message "You did not provide a command to run"⟩
  else if !(hasGroup s m.group) then
    ⟨s, [], create_failure_message ("Group " ++ m.group ++ " does not exist")⟩
  else if !(depsValid s m.dependencies) then
    ⟨s, [], create_failure_message "Invalid dependencies"⟩
  else
    let id := s.nextId
    let task : Task :=
      ⟨id, m.command, m.path, m.envs, m.group, initialStatus m, m.dependencies,
        m.label, 0, none, none⟩
    let sent := if m.startImmediately then [Message.start (.taskIds [id])] else []
    ⟨{ s with tasks := s.tasks ++ [task], nextId := id + 1 }, sent,
      create_success_message ("New task added (id " ++ toString id ++ ")")⟩

/-- Modelled from the spec: `Clean` removes `Done` tasks, optionally scoped
to a group or to successful tasks only (`clean.rs` is not in the sources). -/
def clean (successfulOnly : Bool) (group? : Option String) (s : State) : Dispatch :=
  let removable := fun (t : Task) =>
    (match t.status with
      | .done r => !successfulOnly || r == .success
      | _ => false)
    && (match group? with
      | some g => t.group == g
      | none => true)
  ⟨{ s with tasks := s.tasks.filter (fun t => !(removable t)) }, [],
    create_success_message "All finished tasks have been removed"⟩

/-- Modelled from the spec: `EditRequest` locks a `Queued`/`Stashed` task
into the editing marker and returns its command (`edit.rs` is not in the
sources). -/
def edit_request (id : Nat) (s : State) : Dispatch :=
  match findTask s.tasks id with
  | none => ⟨s, [], create_failure_message "No task with this id"⟩
  | some t =>
    match t.status with
    | .queued =>
      ⟨{ s with tasks := s.tasks.map (fun u =>
          if u.id == id then { u with status := .editing .queued } else u) },
        [], Message.editResponse id t.command⟩
    | .stashed e =>
      ⟨{ s with tasks := s.tasks.map (fun u =>
          if u.id == id then { u with status := .editing (.stashed e) } else u) },
        [], Message.editResponse id t.command⟩
    | _ => ⟨s, [], create_failure_message "You can only edit a queued or stashed task"⟩

/-- Modelled from the spec: `Edit` commits the new command on a task that is
in the editing marker and restores its previous status. -/
def edit (id : Nat) (cmd : String) (s : State) : Dispatch :=
  match findTask s.tasks id with
  | none => ⟨s, [], create_failure_message "No task with this id"⟩
  | some t =>
    match t.status with
    | .editing prev =>
      ⟨{ s with tasks := s.tasks.map (fun u =>
          if u.id == id then { u with command := cmd, status := prev.toStatus } else u) },
        [], create_success_message "Command has been updated"⟩
    | _ => ⟨s, [], create_failure_message "The task is not being edited"⟩

/-- Modelled from the spec: `EditRestore` cancels an edit and restores the
previous status. -/
def edit_restore (id : Nat) (s : State) : Dispatch :=
  match findTask s.tasks id with
  | none => ⟨s, [], create_failure_message "No task with this id"⟩
  | some t =>
    match t.status with
    | .editing prev =>
      ⟨{ s with tasks := s.tasks.map (fun u =>
          if u.id == id then { u with status := prev.toStatus } else u) },
        [], create_success_message "The task has been restored to its original state"⟩
    | _ => ⟨s, [], create_failure_message "The task is not being edited"⟩

/-- Modelled from the spec: `Enqueue` transitions matching `Stashed`/`Locked`
tasks to `Queued`, optionally setting a release time (`enqueue.rs` is not in
the sources). -/
def enqueue (ids : List Nat) (enqueueAt : Option Nat) (s : State) : Dispatch :=
  ⟨{ s with tasks := s.tasks.map (fun t =>
      if ids.contains t.id then
        match t.status with
        | .stashed _ =>
          (match enqueueAt with
            | some ti => { t with status := .stashed (some ti) }
            | none => { t with status := .queued })
        | .locked =>
          (match enqueueAt with
            | some ti => { t with status := .stashed (some ti) }
            | none => { t with status := .queued })
        | _ => t
      else t) },
    [], create_success_message "Tasks have been enqueued"⟩

/-- Modelled from the spec: the `Group` handler adds, removes, or lists
groups; removal rejects non-empty groups and the default group (`group.rs`
is not in the sources). -/
def group (m : GroupMessage) (s : State) : Dispatch :=
  match m with
  | .add name parallelTasks =>
    if hasGroup s name then
      ⟨s, [], create_failure_message ("Group " ++ name ++ " already exists")⟩
    else
      ⟨{ s with groups := s.groups ++ [(name, ⟨parallelTasks.getD 1, .running⟩)] },
        [], create_success_message ("New group " ++ name ++ " has been created")⟩
  | .remove name =>
    if name == "default" then
      ⟨s, [], create_failure_message "The default group cannot be removed"⟩
    else if !(hasGroup s name) then
      ⟨s, [], create_failure_message ("Group " ++ name ++ " does not exist")⟩
    else if s.tasks.any (fun t => t.group == name) then
      ⟨s, [], create_failure_message "The group is not empty"⟩
    else
      ⟨{ s with groups := s.groups.filter (fun p => !(p.1 == name)) },
        [], create_success_message ("Group " ++ name ++ " has been removed")⟩
  | .list => ⟨s, [], create_success_message "Groups"⟩

/-- Modelled from the spec: `Kill` validates the selection and forwards the
kill request as a control message to the scheduler (`kill.rs` is not in the
sources). -/
def kill (sel : TaskSelection) (signal : Option Nat) (s : State) : Dispatch :=
  if selValid s sel then
    ⟨s, [Message.kill sel signal], create_success_message "Tasks are being killed"⟩
  else
    ⟨s, [], create_failure_message "Unable to find the requested tasks or group"⟩

/-- Modelled from the spec: `Log` returns a bounded tail of the log files of
the requested tasks; file contents are abstracted, the response carries the
existing requested ids (`log.rs` is not in the sources). -/
def get_log (ids : List Nat) (s : State) : Dispatch :=
  ⟨s, [], Message.logResponse (ids.filter (fun i => (findTask s.tasks i).isSome))⟩

/-- Modelled from the spec: `Parallel` sets a group's parallel limit (at
least 1); validation failures are reported as `Failure` with no state change
(`parallel.rs` is not in the sources).  The dispatcher invokes this handler
without the channel sender (`mod.rs` line 44), so it mutates the group limit
directly in the shared state and sends nothing to the scheduler. -/
def set_parallel_tasks (g : String) (n : Nat) (s : State) : Dispatch :=
  if n < 1 then
    ⟨s, [], create_failure_message "You have to specify a parallel limit of at least 1"⟩
  else if !(hasGroup s g) then
    ⟨s, [], create_failure_message ("Group " ++ g ++ " does not exist")⟩
  else
    ⟨{ s with groups := s.groups.map (fun p =>
        if p.1 == g then (p.1, { p.2 with parallelLimit := n }) else p) },
      [], create_success_message "Parallel tasks setting adjusted"⟩

/-- Modelled from the spec: `Pause` validates the selection and forwards the
pause request as a control message to the scheduler (`pause.rs` is not in
the sources). -/
def pause (sel : TaskSelection) (s : State) : Dispatch :=
  if selValid s sel then
    ⟨s, [Message.pause sel], create_success_message "Tasks are being paused"⟩
  else
    ⟨s, [], create_failure_message "Unable to find the requested tasks or group"⟩

/-- Modelled from the spec: `Remove` removes non-running tasks by id;
`Running`/`Paused` tasks are kept (`remove.rs` is not in the sources). -/
def remove (ids : List Nat) (s : State) : Dispatch :=
  ⟨{ s with tasks := s.tasks.filter (fun t => !(ids.contains t.id && !(isRP t.status))) },
    [], create_success_message "Tasks have been removed"⟩

/-- Embeds `reset` from `mod.rs`: forwards the reset request to the task
handler over the channel and reports success.  The state is returned
untouched, since the handler itself performs no mutation. -/
def reset (children : Bool) (s : State) : Dispatch :=
  ⟨s, [Message.reset children], create_success_message "Everything is being reset right now."⟩

/-- One in-place restart clone: a finished task is cloned into a fresh id in
`Queued` with its dependencies reset. -/
def restartClone (s : State) (id : Nat) : State :=
  match findTask s.tasks id with
  | none => s
  | some t =>
    if isDone t.status then
      { s with
        tasks := s.tasks ++ [{ t with
          id := s.nextId, status := .queued, dependencies := [],
          startedAt := none, doneAt := none }],
        nextId := s.nextId + 1 }
    else s

/-- Modelled from the spec: `Restart` creates new tasks cloning the
command/env/group of finished tasks, dependencies reset (`restart.rs` is not
in the sources). -/
def restart_multiple (ids : List Nat) (s : State) : Dispatch :=
  ⟨ids.foldl restartClone s, [], create_success_message "Tasks have been restarted"⟩

/-- Modelled from the spec: `Send` forwards stdin bytes to a running task as
a control message; missing or non-running tasks are rejected (`send.rs` is
not in the sources). -/
def send (id : Nat) (input : String) (s : State) : Dispatch :=
  match findTask s.tasks id with
  | none => ⟨s, [], create_failure_message "No task with this id"⟩
  | some t =>
    if t.status == .running then
      ⟨s, [Message.send id input], create_success_message "Message is being sent to the process"⟩
    else
      ⟨s, [], create_failure_message "The task is not running"⟩

/-- Modelled from the spec: `Start` validates the selection and forwards the
start request as a control message to the scheduler (`start.rs` is not in
the sources). -/
def start (sel : TaskSelection) (s : State) : Dispatch :=
  if selValid s sel then
    ⟨s, [Message.start sel], create_success_message "Tasks are being started"⟩
  else
    ⟨s, [], create_failure_message "Unable to find the requested tasks or group"⟩

/-- Modelled from the spec: `Stash` transitions matching `Queued`/`Locked`
tasks to `Stashed` (`stash.rs` is not in the sources). -/
def stash (ids : List Nat) (s : State) : Dispatch :=
  ⟨{ s with tasks := s.tasks.map (fun t =>
      if ids.contains t.id then
        match t.status with
        | .queued => { t with status := .stashed none }
        | .locked => { t with status := .stashed none }
        | _ => t
      else t) },
    [], create_success_message "Tasks are stashed"⟩

/-- A task may take part in a switch only while `Queued` or `Stashed`. -/
def switchable (t : Task) : Bool :=
  match t.status with
  | .queued => true
  | .stashed _ => true
  | _ => false

/-- Modelled from the spec: `Switch` swaps the positions of two non-running
tasks in the id ordering (`switch.rs` is not in the sources). -/
def switch (a b : Nat) (s : State) : Dispatch :=
  match findTask s.tasks a, findTask s.tasks b with
  | some ta, some tb =>
    if switchable ta && switchable tb then
      ⟨{ s with tasks := s.tasks.map (fun t =>
          if t.id == a then { t with id := b }
          else if t.id == b then { t with id := a }
          else t) },
        [], create_success_message "Tasks have been switched"⟩
    else
      ⟨s, [], create_failure_message "Tasks can only be switched if they are queued or stashed"⟩
  | _, _ => ⟨s, [], create_failure_message "No task with this id"⟩

/-- Embeds `get_status` from `mod.rs`: clones the locked state and returns
it as a `StatusResponse`.  Cloning is value copy in the embedding. -/
def get_status (s : State) : Dispatch :=
  ⟨s, [], Message.statusResponse s⟩

/-- Embeds `handle_message` from `mod.rs`: routes each request variant to
its handler; everything else falls into the wildcard arm. -/
def handle_message (message : Message) (s : State) : Dispatch :=
  match message with
  | .add m => add_task m s
  | .clean so g => clean so g s
  | .edit id cmd => edit id cmd s
  | .editRequest id => edit_request id s
  | .editRestore id => edit_restore id s
  | .enqueue ids ea => enqueue ids ea s
  | .group m => group m s
  | .kill sel sig => kill sel sig s
  | .log ids _ => get_log ids s
  | .parallel g n => set_parallel_tasks g n s
  | .pause sel => pause sel s
  | .remove ids => remove ids s
  | .reset c => reset c s
  | .restart ids => restart_multiple ids s
  | .send id input => send id input s
  | .start sel => start sel s
  | .stash ids => stash ids s
  | .switch a b => switch a b s
  | .status => get_status s
  | _ => ⟨s, [], create_failure_message "Not yet implemented"⟩

/-- Outcome of running the dispatcher against a possibly disconnected
scheduler channel: either a normal dispatch or a panic. -/
inductive Outcome where
  | panicked (msg : String)
  | ret (d : Dispatch)
deriving DecidableEq

/-- The dispatcher with the channel state made explicit.  Every handler
sends over the channel with `.expect(SENDER_ERR)`, so a send attempted on a
disconnected channel (the receiving end dropped) panics with `SENDER_ERR`. -/
def handle_message_ch (chOpen : Bool) (m : Message) (s : State) : Outcome :=
  let d := handle_message m s
  if !chOpen && !d.sent.isEmpty then .panicked SENDER_ERR else .ret d

/-- The response-kind messages a handler may return: `Success`, `Failure`,
or a typed response (status, log, edit-response). -/
def isResponse : Message → Bool
  | .success _ => true
  | .failure _ => true
  | .statusResponse _ => true
  | .logResponse _ => true
  | .editResponse _ _ => true
  | _ => false

/-- The request variants with a dedicated handler arm in `handle_message`. -/
def hasHandler : Message → Bool
  | .add _ => true
  | .clean _ _ => true
  | .edit _ _ => true
  | .editRequest _ => true
  | .editRestore _ => true
  | .enqueue _ _ => true
  | .group _ => true
  | .kill _ _ => true
  | .log _ _ => true
  | .parallel _ _ => true
  | .pause _ => true
  | .remove _ => true
  | .reset _ => true
  | .restart _ => true
  | .send _ _ => true
  | .start _ => true
  | .stash _ => true
  | .switch _ _ => true
  | .status => true
  | _ => false

/-- Test whether a task is targeted by a selection. -/
def inSel (sel : TaskSelection) (t : Task) : Bool :=
  match sel with
  | .taskIds ids => ids.contains t.id
  | .group g => t.group == g
  | .all => true

/-- Update the run state of the groups targeted by a selection. -/
def setGroupStatus (gs : GroupStatus) (sel : TaskSelection)
    (groups : List (String × Group)) : List (String × Group) :=
  match sel with
  | .group g => groups.map (fun p => if p.1 == g then (p.1, { p.2 with status := gs }) else p)
  | .all => groups.map (fun p => (p.1, { p.2 with status := gs }))
  | .taskIds _ => groups

/-- Modelled from the spec: scheduler step 1 (the scheduler loop is not in
the sources) — a stashed task whose release time has been reached becomes
`Queued`. -/
def promote_stashed (now : Nat) (s : State) : State :=
  { s with tasks := s.tasks.map (fun t =>
      match t.status with
      | .stashed (some ti) => if ti ≤ now then { t with status := .queued } else t
      | _ => t) }

/-- A dependency counts as satisfied when the task finished successfully. -/
def depSuccess (ts : List Task) (d : Nat) : Bool :=
  match findTask ts d with
  | some t => t.status == .done .success
  | none => false

/-- A dependency counts as failed when the task finished unsuccessfully or
was removed. -/
def depFailed (ts : List Task) (d : Nat) : Bool :=
  match findTask ts d with
  | some t =>
    match t.status with
    | .done r => !(r == .success)
    | _ => false
  | none => true

/-- Modelled from the spec: scheduler step 2 — a `Locked` task whose
dependencies are all `Done{Success}` becomes `Queued`; if any dependency
failed or was removed it becomes `Done{DependencyFailed}`. -/
def resolve_deps (s : State) : State :=
  { s with tasks := s.tasks.map (fun t =>
      match t.status with
      | .locked =>
        if t.dependencies.any (depFailed s.tasks) then { t with status := .done .dependencyFailed }
        else if t.dependencies.all (depSuccess s.tasks) then { t with status := .queued }
        else t
      | _ => t) }

/-- Modelled from the spec: scheduler step 5 — processing one control
message from the dispatcher.  A start of specific task ids operates
regardless of group state and spawns a queued task immediately; group and
all starts resume paused tasks and set the group running.  Pause suspends
running tasks; kill terminates slot-occupying tasks (signal delivery and
reap abstracted into the transition to `Done{Killed}`); reset clears the
task mapping while preserving groups and their limits. -/
def process_ctrl (s : State) (m : Message) : State :=
  match m with
  | .start sel =>
    let forced := match sel with | .taskIds _ => true | _ => false
    { s with
      groups := setGroupStatus .running sel s.groups,
      tasks := s.tasks.map (fun t =>
        if inSel sel t then
          match t.status with
          | .paused => { t with status := .running }
          | .queued => if forced then { t with status := .running } else t
          | _ => t
        else t) }
  | .pause sel =>
    { s with
      groups := setGroupStatus .paused sel s.groups,
      tasks := s.tasks.map (fun t =>
        if inSel sel t && t.status == .running then { t with status := .paused } else t) }
  | .kill sel _ =>
    { s with tasks := s.tasks.map (fun t =>
        if inSel sel t && isRP t.status then { t with status := .done .killed } else t) }
  | .reset _ => { s with tasks := [] }
  | _ => s

/-- Draining the control channel before the spawn step. -/
def drain (msgs : List Message) (s : State) : State :=
  msgs.foldl process_ctrl s

/-- Handing one queued task to the supervisor: on spawn success it becomes
`Running`, on failure `Done{FailedToSpawn}`. -/
def spawnedTask (spawnOk : Nat → Bool) (t : Task) : Task :=
  if spawnOk t.id then { t with status := .running }
  else { t with status := .done (.failedToSpawn "Failed to spawn task") }

/-- Spawn up to `free` queued tasks of group `g`, in list order. -/
def spawn_in_group (spawnOk : Nat → Bool) (g : String) : Nat → List Task → List Task
  | _, [] => []
  | 0, ts => ts
  | free + 1, t :: ts =>
    if t.group == g && t.status == .queued then
      spawnedTask spawnOk t :: spawn_in_group spawnOk g free ts
    else
      t :: spawn_in_group spawnOk g (free + 1) ts

/-- One group's contribution to the spawn step: in running state, spawn up
to the group's free slots `parallel_limit - (Running + Paused)`. -/
def spawnStepFold (spawnOk : Nat → Bool) (ts : List Task) (p : String × Group) : List Task :=
  if p.2.status == .running then
    spawn_in_group spawnOk p.1 (p.2.parallelLimit - countRP ts p.1) ts
  else ts

/-- Modelled from the spec: scheduler step 3 — for each group in running
state, compute the free slots `parallel_limit - (Running + Paused)` and hand
that many queued tasks of the group to the supervisor. -/
def spawn_step (spawnOk : Nat → Bool) (s : State) : State :=
  { s with tasks := s.groups.foldl (spawnStepFold spawnOk) s.tasks }

/-- Modelled from the spec: scheduler step 4 — reap finished children and
translate the exit into a `Done` status. -/
def reap (finished : Nat → Option TaskResult) (s : State) : State :=
  { s with tasks := s.tasks.map (fun t =>
      if t.status == .running then
        match finished t.id with
        | some r => { t with status := .done r }
        | none => t
      else t) }

/-- Modelled from the spec: one scheduler tick — promote scheduled stashed
tasks, resolve dependencies, drain the control channel, spawn, and reap.
The channel is drained before the spawn step. -/
def tick (now : Nat) (msgs : List Message) (spawnOk : Nat → Bool)
    (finished : Nat → Option TaskResult) (s : State) : State :=
  reap finished (spawn_step spawnOk (drain msgs (resolve_deps (promote_stashed now s))))

/-- Modelled from the spec: serialization demotes `Running` and `Paused` to
`Queued` so that a restart re-enqueues in-flight work; all other fields are
written unchanged (the persistence module is not in the sources). -/
def serialize_task (t : Task) : Task :=
  if isRP t.status then { t with status := .queued } else t

/-- Modelled from the spec: the persisted snapshot of a state. -/
def snapshot (s : State) : State :=
  { s with tasks := s.tasks.map serialize_task }

/-- Modelled from the spec: restoring reads the snapshot back; parsing of
the on-disk representation is abstracted away. -/
def restore (p : State) : State := p

/-- Well-formedness of the reachable states: group names are unique (the
groups live in a map keyed by name), every task belongs to an existing
group, and every group's parallel bound holds. -/
def nodupKeys : List (String × Group) → Bool
  | [] => true
  | p :: rest => !(rest.any (fun q => q.1 == p.1)) && nodupKeys rest

/-- The state invariant: unique group names, every task's group exists, and
within every group at most `parallel_limit` tasks occupy a slot. -/
def Inv (s : State) : Prop :=
  nodupKeys s.groups = true
  ∧ (∀ t ∈ s.tasks, hasGroup s t.group = true)
  ∧ (∀ p ∈ s.groups, countRP s.tasks p.1 ≤ p.2.parallelLimit)

instance instDecidableInv (s : State) : Decidable (Inv s) := by
  unfold Inv; infer_instance

end Pueue
namespace Pueue

/-- A sample queued task used by the concrete witness states. -/
def sampleTask (id : Nat) (st : TaskStatus) : Task :=
  ⟨id, "ls", "/tmp", [], "default", st, [], none, 0, none, none⟩

/-- A small well-formed state: one queued task in the default group. -/
def s0 : State := ⟨[sampleTask 0 .queued], [("default", ⟨1, .running⟩)], 1⟩

/-- A state whose default group (limit 2) is exactly full. -/
def runningPair : State :=
  ⟨[sampleTask 0 .running, sampleTask 1 .running], [("default", ⟨2, .running⟩)], 2⟩

/-- C1 counterexample part: at a concrete persistence error the response is
not literally `Failure("Failed to save state")`; the code appends the error. -/
theorem c1_save_failure_cx :
    (persistAndRespond (Except.error "Serialization error") s0 (Message.success "ok")).2
      ≠ Message.failure "Failed to save state" := by decide

/-- C1 (amended): on a persistence failure the handler responds with
`Failure("Failed to save state. This is a bug: " ++ error)` while the
already-applied in-memory mutation remains in place. -/
theorem c1_save_failure_amended : ∀ (e : String) (mutated : State) (onOk : Message),
    persistAndRespond (Except.error e) mutated onOk
      = (mutated, Message.failure ("Failed to save state. This is a bug: " ++ e)) :=
  fun _ _ _ => rfl

/-- C2: handling `Status` returns a `StatusResponse` whose payload equals
the state and leaves every field of the shared state unchanged. -/
theorem c2_status_deep_copy : ∀ s : State,
    handle_message Message.status s = ⟨s, [], Message.statusResponse s⟩ :=
  fun _ => rfl

/-- C9: every message variant without a dedicated handler arm falls into the
wildcard and yields `Failure("Not yet implemented")` with the state and the
channel untouched. -/
theorem c9_wildcard_not_implemented : ∀ (m : Message) (s : State), hasHandler m = false →
    handle_message m s = ⟨s, [], Message.failure "Not yet implemented"⟩ := by
  intro m s h
  cases m <;> first | rfl | simp [hasHandler] at h

/-- Witness for C9 at the concrete unhandled variant `Success`. -/
theorem c9_wildcard_witness :
    hasHandler (Message.success "hello") = false
    ∧ handle_message (Message.success "hello") s0
        = ⟨s0, [], Message.failure "Not yet implemented"⟩ :=
  ⟨rfl, c9_wildcard_not_implemented (Message.success "hello") s0 rfl⟩

/-- C10: with the scheduler channel disconnected the `Reset` handler panics
with `SENDER_ERR` instead of returning a `Failure` response; with the
channel open it forwards the reset and returns the success message without
mutating the state. -/
theorem c10_reset_panic_or_success : ∀ (s : State) (c : Bool),
    handle_message_ch false (Message.reset c) s = Outcome.panicked SENDER_ERR
    ∧ handle_message_ch true (Message.reset c) s
        = Outcome.ret ⟨s, [Message.reset c], Message.success "Everything is being reset right now."⟩ :=
  fun _ _ => ⟨rfl, rfl⟩

/-- C4 counterexample part: a successful `Parallel` request sends nothing on
the scheduler channel; the limit is changed directly in the shared state. -/
theorem c4_parallel_no_channel_cx :
    (handle_message (Message.parallel "default" 3) runningPair).sent = []
    ∧ (handle_message (Message.parallel "default" 3) runningPair).response
        = Message.success "Parallel tasks setting adjusted"
    ∧ findGroupIn (handle_message (Message.parallel "default" 3) runningPair).state.groups "default"
        = some ⟨3, .running⟩ := by decide

end Pueue
namespace Pueue

/-- Setting a group's limit in the association list updates exactly that
group's entry. -/
theorem findGroupIn_set_limit (gs : List (String × Group)) (g : String) (n : Nat) :
    findGroupIn (gs.map (fun p => if p.1 == g then (p.1, { p.2 with parallelLimit := n }) else p)) g
      = (findGroupIn gs g).map (fun G => { G with parallelLimit := n }) := by
  induction gs with
  | nil => rfl
  | cons p rest ih =>
    simp only [List.map_cons, findGroupIn, List.find?] at *
    by_cases h : p.1 == g
    · simp [h]
    · simp only [h, Bool.false_eq_true, reduceIte]
      exact ih

/-- C4 (amended): the `Parallel` handler is invoked without the channel
sender; it sends nothing to the scheduler and updates the group's parallel
limit directly in the shared state, while pause, start, kill, reset, and
send-stdin do use the channel. -/
theorem c4_parallel_direct_amended :
    (∀ (g : String) (n : Nat) (s : State),
      (handle_message (Message.parallel g n) s).sent = [])
    ∧ (∀ (g : String) (n : Nat) (s : State), 1 ≤ n → hasGroup s g = true →
        findGroupIn (handle_message (Message.parallel g n) s).state.groups g
          = (findGroupIn s.groups g).map (fun G => { G with parallelLimit := n }))
    ∧ (∀ (s : State) (c : Bool),
        (handle_message (Message.reset c) s).sent = [Message.reset c])
    ∧ (∀ (s : State) (sel : TaskSelection) (sig : Option Nat), selValid s sel = true →
        (handle_message (Message.pause sel) s).sent = [Message.pause sel]
        ∧ (handle_message (Message.start sel) s).sent = [Message.start sel]
        ∧ (handle_message (Message.kill sel sig) s).sent = [Message.kill sel sig])
    ∧ (∀ (s : State) (id : Nat) (inp : String) (t : Task),
        findTask s.tasks id = some t → t.status = .running →
        (handle_message (Message.send id inp) s).sent = [Message.send id inp]) := by
  refine ⟨?_, ?_, ?_, ?_, ?_⟩
  · intro g n s
    simp only [handle_message, set_parallel_tasks]
    split
    · rfl
    · split <;> rfl
  · intro g n s h1 h2
    simp only [handle_message, set_parallel_tasks]
    rw [if_neg (by omega), if_neg (by simp [h2])]
    exact findGroupIn_set_limit s.groups g n
  · intro s c; rfl
  · intro s sel sig h
    refine ⟨?_, ?_, ?_⟩ <;> simp [handle_message, pause, start, kill, h]
  · intro s id inp t hf hr
    simp only [handle_message, send, hf]
    rw [if_pos (by simp [hr])]

/-- Witness for C4 (amended) at concrete inputs. -/
theorem c4_parallel_direct_witness :
    (handle_message (Message.parallel "default" 2) s0).sent = []
    ∧ findGroupIn (handle_message (Message.parallel "default" 2) s0).state.groups "default"
        = some ⟨2, .running⟩
    ∧ (handle_message (Message.pause .all) s0).sent = [Message.pause .all] := by
  refine ⟨c4_parallel_direct_amended.1 "default" 2 s0, ?_,
    (c4_parallel_direct_amended.2.2.2.1 s0 .all none (by decide)).1⟩
  rw [c4_parallel_direct_amended.2.1 "default" 2 s0 (by decide) (by decide)]
  decide

/-- C5: the `Start`, `Pause`, and `Kill` handlers never mutate the state,
and on a valid selection each forwards its control message on the scheduler
channel. -/
theorem c5_start_pause_kill_forward : ∀ (sel : TaskSelection) (sig : Option Nat) (s : State),
    ((handle_message (Message.start sel) s).state = s
      ∧ (handle_message (Message.pause sel) s).state = s
      ∧ (handle_message (Message.kill sel sig) s).state = s)
    ∧ (selValid s sel = true →
        (handle_message (Message.start sel) s).sent = [Message.start sel]
        ∧ (handle_message (Message.pause sel) s).sent = [Message.pause sel]
        ∧ (handle_message (Message.kill sel sig) s).sent = [Message.kill sel sig]) := by
  intro sel sig s
  constructor
  · simp only [handle_message, start, pause, kill]
    refine ⟨?_, ?_, ?_⟩ <;> split <;> rfl
  · intro h
    refine ⟨?_, ?_, ?_⟩ <;> simp [handle_message, start, pause, kill, h]

/-- Witness for C5 at the concrete selection of all tasks. -/
theorem c5_start_pause_kill_witness :
    (handle_message (Message.start .all) s0).state = s0
    ∧ (handle_message (Message.start .all) s0).sent = [Message.start .all] :=
  ⟨(c5_start_pause_kill_forward .all none s0).1.1,
    ((c5_start_pause_kill_forward .all none s0).2 (by decide)).1⟩

end Pueue
namespace Pueue

/-- The malformed-request classes named by the error-handling design:
unknown group or empty command or invalid (cyclic) dependencies on `Add`,
and a parallel limit below 1 or an unknown group on `Parallel`. -/
def malformed (m : Message) (s : State) : Bool :=
  match m with
  | .add am => am.command == "" || !(hasGroup s am.group) || !(depsValid s am.dependencies)
  | .parallel g n => n == 0 || !(hasGroup s g)
  | _ => false

/-- C8: a malformed request is answered with `Failure(msg)` and the state
after handling equals the state before handling; nothing is sent to the
scheduler either. -/
theorem c8_validation_no_state_change : ∀ (m : Message) (s : State), malformed m s = true →
    (handle_message m s).state = s
    ∧ (handle_message m s).sent = []
    ∧ ∃ msg, (handle_message m s).response = Message.failure msg := by
  intro m s h
  cases m <;> simp only [malformed] at h <;> try exact absurd h (by decide)
  case add am =>
    simp only [handle_message, add_task]
    by_cases h1 : am.command == ""
    · simp [h1, create_failure_message]
    · by_cases h2 : hasGroup s am.group
      · by_cases h3 : depsValid s am.dependencies
        · simp [h1, h2, h3] at h
        · simp [h1, h2, h3, create_failure_message]
      · simp [h1, h2, create_failure_message]
  case parallel g n =>
    simp only [handle_message, set_parallel_tasks]
    by_cases h1 : n < 1
    · simp [h1, create_failure_message]
    · have hn : (n == 0) = false := by simp; omega
      rw [hn] at h
      simp only [Bool.false_or] at h
      simp [h1, h, create_failure_message]

/-- An `Add` request targeting a group that does not exist. -/
def addToMissingGroup : AddMessage :=
  ⟨"ls", "/tmp", [], "missing", [], none, false, none, false⟩

/-- Witness for C8: adding a task to a nonexistent group fails with a
`Failure` response and no state change. -/
theorem c8_validation_witness :
    malformed (Message.add addToMissingGroup) s0 = true
    ∧ (handle_message (Message.add addToMissingGroup) s0).state = s0
    ∧ (handle_message (Message.add addToMissingGroup) s0).sent = []
    ∧ ∃ msg, (handle_message (Message.add addToMissingGroup) s0).response = Message.failure msg :=
  ⟨by decide, c8_validation_no_state_change (Message.add addToMissingGroup) s0 (by decide)⟩

theorem resp_add (m : AddMessage) (s : State) : isResponse (add_task m s).response = true := by
  unfold add_task; (repeat' split) <;> rfl

theorem resp_clean (so : Bool) (g : Option String) (s : State) :
    isResponse (clean so g s).response = true := rfl

theorem resp_edit (id : Nat) (cmd : String) (s : State) :
    isResponse (edit id cmd s).response = true := by
  unfold edit; (repeat' split) <;> rfl

theorem resp_edit_request (id : Nat) (s : State) :
    isResponse (edit_request id s).response = true := by
  unfold edit_request; (repeat' split) <;> rfl

theorem resp_edit_restore (id : Nat) (s : State) :
    isResponse (edit_restore id s).response = true := by
  unfold edit_restore; (repeat' split) <;> rfl

theorem resp_group (m : GroupMessage) (s : State) :
    isResponse (group m s).response = true := by
  unfold group; (repeat' split) <;> rfl

theorem resp_kill (sel : TaskSelection) (sig : Option Nat) (s : State) :
    isResponse (kill sel sig s).response = true := by
  unfold kill; (repeat' split) <;> rfl

theorem resp_parallel (g : String) (n : Nat) (s : State) :
    isResponse (set_parallel_tasks g n s).response = true := by
  unfold set_parallel_tasks; (repeat' split) <;> rfl

theorem resp_pause (sel : TaskSelection) (s : State) :
    isResponse (pause sel s).response = true := by
  unfold pause; (repeat' split) <;> rfl

theorem resp_send (id : Nat) (inp : String) (s : State) :
    isResponse (send id inp s).response = true := by
  unfold send; (repeat' split) <;> rfl

theorem resp_start (sel : TaskSelection) (s : State) :
    isResponse (start sel s).response = true := by
  unfold start; (repeat' split) <;> rfl

theorem resp_switch (a b : Nat) (s : State) :
    isResponse (switch a b s).response = true := by
  unfold switch; (repeat' split) <;> rfl

/-- C3: the dispatcher is a total function from a request to exactly one
response, and that response is a `Success`, a `Failure`, or a typed
response. -/
theorem c3_exactly_one_response : ∀ (m : Message) (s : State),
    isResponse (handle_message m s).response = true := by
  intro m s
  cases m <;>
    first
      | rfl
      | exact resp_add ..
      | exact resp_clean ..
      | exact resp_edit ..
      | exact resp_edit_request ..
      | exact resp_edit_restore ..
      | exact resp_group ..
      | exact resp_kill ..
      | exact resp_parallel ..
      | exact resp_pause ..
      | exact resp_send ..
      | exact resp_start ..
      | exact resp_switch ..

end Pueue
namespace Pueue

/-- Pointwise description of the demotion a snapshot performs. -/
def demotedFrom (t t' : Task) : Prop :=
  t'.id = t.id ∧ t'.command = t.command ∧ t'.path = t.path ∧ t'.envs = t.envs
  ∧ t'.group = t.group ∧ t'.dependencies = t.dependencies ∧ t'.label = t.label
  ∧ t'.createdAt = t.createdAt ∧ t'.startedAt = t.startedAt ∧ t'.doneAt = t.doneAt
  ∧ t'.status = (if isRP t.status then .queued else t.status)

/-- C7: restoring a snapshot yields a state that differs from the original
only in that every `Running`/`Paused` task is `Queued`, with every other
field (including `started_at`) preserved, and the persisted snapshot itself
contains no `Running` or `Paused` task. -/
theorem c7_snapshot_roundtrip : ∀ s : State,
    (restore (snapshot s)).groups = s.groups
    ∧ (restore (snapshot s)).nextId = s.nextId
    ∧ List.Forall₂ demotedFrom s.tasks (restore (snapshot s)).tasks
    ∧ ∀ t' ∈ (snapshot s).tasks, isRP t'.status = false := by
  intro s
  refine ⟨rfl, rfl, ?_, ?_⟩
  · show List.Forall₂ demotedFrom s.tasks (s.tasks.map serialize_task)
    rw [List.forall₂_map_right_iff]
    rw [List.forall₂_same]
    intro t _
    unfold demotedFrom serialize_task
    by_cases h : isRP t.status <;> simp [h]
  · intro t' ht'
    simp only [snapshot, List.mem_map] at ht'
    obtain ⟨t, _, rfl⟩ := ht'
    unfold serialize_task
    rcases h : t.status with _ | _ | _ | _ | _ | _ | _ <;> simp [isRP, h]

end Pueue
namespace Pueue

theorem countRP_eq_countP (ts : List Task) (g : String) :
    countRP ts g = ts.countP (fun t => t.group == g && isRP t.status) :=
  (List.countP_eq_length_filter _ _).symm

theorem countRP_map_le (f : Task → Task) (ts : List Task) (g : String)
    (hg : ∀ t, (f t).group = t.group)
    (hs : ∀ t, isRP (f t).status = true → isRP t.status = true) :
    countRP (ts.map f) g ≤ countRP ts g := by
  rw [countRP_eq_countP, countRP_eq_countP, List.countP_map]
  apply List.countP_mono_left
  intro t _ h
  simp only [Function.comp_apply, Bool.and_eq_true] at h ⊢
  obtain ⟨h1, h2⟩ := h
  rw [hg] at h1
  exact ⟨h1, hs t h2⟩

theorem countRP_filter_le (q : Task → Bool) (ts : List Task) (g : String) :
    countRP (ts.filter q) g ≤ countRP ts g := by
  rw [countRP_eq_countP, countRP_eq_countP, List.countP_filter]
  apply List.countP_mono_left
  intro t _ h
  simp only [Bool.and_eq_true] at h ⊢
  exact h.1

theorem countRP_append (ts us : List Task) (g : String) :
    countRP (ts ++ us) g = countRP ts g + countRP us g := by
  simp [countRP_eq_countP]

theorem countRP_singleton_nonRP (t : Task) (g : String) (h : isRP t.status = false) :
    countRP [t] g = 0 := by
  simp [countRP_eq_countP, List.countP_cons, h]

theorem countRP_eq_zero (ts : List Task) (g : String)
    (h : ∀ t ∈ ts, (t.group == g) = false) : countRP ts g = 0 := by
  rw [countRP_eq_countP, List.countP_eq_zero]
  intro t ht
  simp [h t ht]

theorem hasGroupIn_iff (gs : List (String × Group)) (g : String) :
    hasGroupIn gs g = true ↔ ∃ p ∈ gs, p.1 = g := by
  simp [hasGroupIn, List.any_eq_true]

theorem hasGroupIn_map_key (gs : List (String × Group)) (gf : String × Group → String × Group)
    (hk : ∀ p, (gf p).1 = p.1) (g : String) :
    hasGroupIn (gs.map gf) g = hasGroupIn gs g := by
  induction gs with
  | nil => rfl
  | cons p rest ih => simp [hasGroupIn, hk, List.any_cons] at ih ⊢; rw [ih]

theorem any_key_map (gs : List (String × Group)) (gf : String × Group → String × Group)
    (hk : ∀ p, (gf p).1 = p.1) (x : String) :
    (gs.map gf).any (fun p => p.1 == x) = gs.any (fun p => p.1 == x) := by
  induction gs with
  | nil => rfl
  | cons q rest ih => simp only [List.map_cons, List.any_cons, hk, ih]

theorem nodupKeys_map_key (gs : List (String × Group)) (gf : String × Group → String × Group)
    (hk : ∀ p, (gf p).1 = p.1) : nodupKeys (gs.map gf) = nodupKeys gs := by
  induction gs with
  | nil => rfl
  | cons p rest ih =>
    simp only [List.map_cons, nodupKeys, hk, any_key_map rest gf hk, ih]

theorem any_key_filter_le (gs : List (String × Group)) (q : String × Group → Bool) (x : String)
    (h : (gs.filter q).any (fun p => p.1 == x) = true) : gs.any (fun p => p.1 == x) = true := by
  simp only [List.any_eq_true] at h ⊢
  obtain ⟨p, hp, hx⟩ := h
  exact ⟨p, List.mem_of_mem_filter hp, hx⟩

theorem nodupKeys_filter (gs : List (String × Group)) (q : String × Group → Bool)
    (h : nodupKeys gs = true) : nodupKeys (gs.filter q) = true := by
  induction gs with
  | nil => rfl
  | cons p rest ih =>
    simp only [nodupKeys, Bool.and_eq_true, Bool.not_eq_true'] at h
    obtain ⟨h1, h2⟩ := h
    rw [List.filter_cons]
    split
    · simp only [nodupKeys, Bool.and_eq_true, Bool.not_eq_true']
      refine ⟨?_, ih h2⟩
      rcases hq : (rest.filter q).any (fun r => r.1 == p.1) with _ | _
      · rfl
      · rw [any_key_filter_le rest q p.1 hq] at h1; exact h1
    · exact ih h2

theorem nodupKeys_append_fresh (gs : List (String × Group)) (name : String) (G : Group)
    (h : nodupKeys gs = true) (hmiss : hasGroupIn gs name = false) :
    nodupKeys (gs ++ [(name, G)]) = true := by
  induction gs with
  | nil => simp [nodupKeys]
  | cons p rest ih =>
    simp only [nodupKeys, Bool.and_eq_true, Bool.not_eq_true'] at h
    obtain ⟨h1, h2⟩ := h
    simp only [hasGroupIn, List.any_cons, Bool.or_eq_false_iff] at hmiss
    obtain ⟨hm1, hm2⟩ := hmiss
    simp only [List.cons_append, nodupKeys, Bool.and_eq_true, Bool.not_eq_true']
    refine ⟨?_, ih h2 hm2⟩
    have hne : (name == p.1) = false := by
      rcases hbe : (name == p.1) with _ | _
      · rfl
      · exfalso
        rw [beq_iff_eq] at hbe
        rw [hbe] at hm1
        simp at hm1
    simp [List.any_append, List.any_cons, h1, hne]

/-- An Inv-preserving task-list map: groups are untouched, every task keeps
its group, and the map never turns a non-slot-occupying task into a
slot-occupying one. -/
theorem Inv_mapTasks (s : State) (f : Task → Task)
    (hg : ∀ t, (f t).group = t.group)
    (hs : ∀ t, isRP (f t).status = true → isRP t.status = true)
    (h : Inv s) : Inv { s with tasks := s.tasks.map f } := by
  obtain ⟨h1, h2, h3⟩ := h
  refine ⟨h1, ?_, ?_⟩
  · intro t ht
    rw [List.mem_map] at ht
    obtain ⟨u, hu, rfl⟩ := ht
    show hasGroupIn s.groups (f u).group = true
    rw [hg]
    exact h2 u hu
  · intro p hp
    exact le_trans (countRP_map_le f s.tasks p.1 hg hs) (h3 p hp)

/-- Filtering the task list preserves the invariant. -/
theorem Inv_filterTasks (s : State) (q : Task → Bool) (h : Inv s) :
    Inv { s with tasks := s.tasks.filter q } := by
  obtain ⟨h1, h2, h3⟩ := h
  refine ⟨h1, ?_, ?_⟩
  · intro t ht
    exact h2 t (List.mem_of_mem_filter ht)
  · intro p hp
    exact le_trans (countRP_filter_le q s.tasks p.1) (h3 p hp)

/-- Appending a task that occupies no slot and whose group exists preserves
the invariant, for any new id counter. -/
theorem Inv_appendTask (s : State) (t : Task) (n : Nat)
    (hgrp : hasGroup s t.group = true) (hrp : isRP t.status = false) (h : Inv s) :
    Inv { s with tasks := s.tasks ++ [t], nextId := n } := by
  obtain ⟨h1, h2, h3⟩ := h
  refine ⟨h1, ?_, ?_⟩
  · intro u hu
    rw [List.mem_append, List.mem_singleton] at hu
    rcases hu with hu | hu
    · exact h2 u hu
    · subst hu; exact hgrp
  · intro p hp
    rw [countRP_append, countRP_singleton_nonRP t p.1 hrp]
    simpa using h3 p hp

/-- A simultaneous task map and group map that preserves group keys and
parallel limits preserves the invariant. -/
theorem Inv_mapBoth (s : State) (f : Task → Task) (gf : String × Group → String × Group)
    (hg : ∀ t, (f t).group = t.group)
    (hs : ∀ t, isRP (f t).status = true → isRP t.status = true)
    (hk : ∀ p, (gf p).1 = p.1)
    (hl : ∀ p, (gf p).2.parallelLimit = p.2.parallelLimit)
    (h : Inv s) : Inv { s with tasks := s.tasks.map f, groups := s.groups.map gf } := by
  obtain ⟨h1, h2, h3⟩ := h
  refine ⟨?_, ?_, ?_⟩
  · show nodupKeys (s.groups.map gf) = true
    rw [nodupKeys_map_key s.groups gf hk]; exact h1
  · intro t ht
    rw [List.mem_map] at ht
    obtain ⟨u, hu, rfl⟩ := ht
    show hasGroupIn (s.groups.map gf) (f u).group = true
    rw [hasGroupIn_map_key s.groups gf hk, hg]
    exact h2 u hu
  · intro p hp
    rw [List.mem_map] at hp
    obtain ⟨q, hq, rfl⟩ := hp
    rw [hk, hl]
    exact le_trans (countRP_map_le f s.tasks q.1 hg hs) (h3 q hq)

end Pueue
namespace Pueue

theorem isRP_initialStatus (m : AddMessage) : isRP (initialStatus m) = false := by
  unfold initialStatus
  (repeat' split) <;> rfl

theorem isRP_prevToStatus (p : PrevStatus) : isRP p.toStatus = false := by
  cases p <;> rfl

theorem inv_add (m : AddMessage) (s : State) (h : Inv s) : Inv (add_task m s).state := by
  unfold add_task
  split
  · exact h
  split
  · exact h
  split
  · exact h
  rename_i h1 h2 h3
  simp only [Bool.not_eq_true', Bool.not_eq_false] at h2
  exact Inv_appendTask s _ _ h2 (isRP_initialStatus m) h

theorem inv_clean (so : Bool) (g : Option String) (s : State) (h : Inv s) :
    Inv (clean so g s).state :=
  Inv_filterTasks s _ h

theorem inv_remove (ids : List Nat) (s : State) (h : Inv s) :
    Inv (remove ids s).state :=
  Inv_filterTasks s _ h

theorem inv_edit_request (id : Nat) (s : State) (h : Inv s) :
    Inv (edit_request id s).state := by
  unfold edit_request
  split
  · exact h
  split
  · refine Inv_mapTasks s _ ?_ ?_ h
    · intro t; (try dsimp only); split <;> rfl
    · intro t ht; split at ht
      · simp [isRP] at ht
      · exact ht
  · refine Inv_mapTasks s _ ?_ ?_ h
    · intro t; (try dsimp only); split <;> rfl
    · intro t ht; split at ht
      · simp [isRP] at ht
      · exact ht
  · exact h

theorem inv_edit (id : Nat) (cmd : String) (s : State) (h : Inv s) :
    Inv (edit id cmd s).state := by
  unfold edit
  split
  · exact h
  split
  · refine Inv_mapTasks s _ ?_ ?_ h
    · intro t; (try dsimp only); split <;> rfl
    · intro t ht; split at ht
      · rw [isRP_prevToStatus] at ht; exact absurd ht (by decide)
      · exact ht
  · exact h

theorem inv_edit_restore (id : Nat) (s : State) (h : Inv s) :
    Inv (edit_restore id s).state := by
  unfold edit_restore
  split
  · exact h
  split
  · refine Inv_mapTasks s _ ?_ ?_ h
    · intro t; (try dsimp only); split <;> rfl
    · intro t ht; split at ht
      · rw [isRP_prevToStatus] at ht; exact absurd ht (by decide)
      · exact ht
  · exact h

theorem inv_enqueue (ids : List Nat) (ea : Option Nat) (s : State) (h : Inv s) :
    Inv (enqueue ids ea s).state := by
  refine Inv_mapTasks s _ ?_ ?_ h
  · intro t; (try dsimp only); (repeat' split) <;> rfl
  · intro t ht
    split at ht
    · split at ht
      · split at ht <;> simp [isRP] at ht
      · split at ht <;> simp [isRP] at ht
      · exact ht
    · exact ht

theorem inv_stash (ids : List Nat) (s : State) (h : Inv s) :
    Inv (stash ids s).state := by
  refine Inv_mapTasks s _ ?_ ?_ h
  · intro t; (try dsimp only); (repeat' split) <;> rfl
  · intro t ht
    split at ht
    · split at ht <;> first | exact ht | simp [isRP] at ht
    · exact ht

theorem inv_switch (a b : Nat) (s : State) (h : Inv s) :
    Inv (switch a b s).state := by
  unfold switch
  split
  · split
    · refine Inv_mapTasks s _ ?_ ?_ h
      · intro t; (try dsimp only); (repeat' split) <;> rfl
      · intro t ht
        split at ht
        · exact ht
        · split at ht <;> exact ht
    · exact h
  · exact h

theorem inv_group (m : GroupMessage) (s : State) (h : Inv s) :
    Inv (group m s).state := by
  obtain ⟨h1, h2, h3⟩ := h
  cases m with
  | add name plim =>
    simp only [group]
    split
    · exact ⟨h1, h2, h3⟩
    rename_i hmiss
    simp only [Bool.not_eq_true] at hmiss
    refine ⟨?_, ?_, ?_⟩
    · exact nodupKeys_append_fresh s.groups name _ h1 hmiss
    · intro t ht
      have hg := h2 t ht
      rw [hasGroup, hasGroupIn_iff] at hg
      obtain ⟨p, hp, he⟩ := hg
      show hasGroupIn (s.groups ++ [(name, ⟨plim.getD 1, .running⟩)]) t.group = true
      rw [hasGroupIn_iff]
      exact ⟨p, List.mem_append_left _ hp, he⟩
    · intro p hp
      rw [List.mem_append, List.mem_singleton] at hp
      rcases hp with hp | hp
      · exact h3 p hp
      · subst hp
        have hz : countRP s.tasks name = 0 := by
          apply countRP_eq_zero
          intro t ht
          rcases hbe : (t.group == name) with _ | _
          · rfl
          · exfalso
            rw [beq_iff_eq] at hbe
            have hgt := h2 t ht
            rw [hbe] at hgt
            rw [hgt] at hmiss
            exact absurd hmiss (by decide)
        simp [hz]
  | remove name =>
    simp only [group]
    split
    · exact ⟨h1, h2, h3⟩
    split
    · exact ⟨h1, h2, h3⟩
    split
    · exact ⟨h1, h2, h3⟩
    rename_i hdef hmiss hempty
    refine ⟨?_, ?_, ?_⟩
    · exact nodupKeys_filter s.groups _ h1
    · intro t ht
      have hg := h2 t ht
      rw [hasGroup, hasGroupIn_iff] at hg
      obtain ⟨p, hp, he⟩ := hg
      have htg : (t.group == name) = false := by
        rcases hbe : (t.group == name) with _ | _
        · rfl
        · exfalso
          apply hempty
          rw [List.any_eq_true]
          exact ⟨t, ht, hbe⟩
      show hasGroupIn (s.groups.filter fun p => !(p.1 == name)) t.group = true
      rw [hasGroupIn_iff]
      refine ⟨p, ?_, he⟩
      rw [List.mem_filter]
      refine ⟨hp, ?_⟩
      simp [he, htg]
    · intro p hp
      exact h3 p (List.mem_of_mem_filter hp)
  | list => exact ⟨h1, h2, h3⟩

theorem inv_parallel (g : String) (n : Nat) (s : State) (h : Inv s)
    (hcnt : countRP s.tasks g ≤ n) : Inv (set_parallel_tasks g n s).state := by
  obtain ⟨h1, h2, h3⟩ := h
  unfold set_parallel_tasks
  split
  · exact ⟨h1, h2, h3⟩
  split
  · exact ⟨h1, h2, h3⟩
  refine ⟨?_, ?_, ?_⟩
  · show nodupKeys (s.groups.map _) = true
    rw [nodupKeys_map_key]
    · exact h1
    · intro p; (try dsimp only); split <;> rfl
  · intro t ht
    show hasGroupIn (s.groups.map _) t.group = true
    rw [hasGroupIn_map_key]
    · exact h2 t ht
    · intro p; (try dsimp only); split <;> rfl
  · intro p hp
    rw [List.mem_map] at hp
    obtain ⟨q, hq, rfl⟩ := hp
    dsimp only
    split
    · rename_i hqg
      rw [beq_iff_eq] at hqg
      dsimp only
      rw [hqg]
      exact hcnt
    · exact h3 q hq

theorem inv_restartClone (s : State) (id : Nat) (h : Inv s) : Inv (restartClone s id) := by
  unfold restartClone
  split
  · exact h
  split
  · rename_i t hf hdone
    refine Inv_appendTask s _ _ ?_ rfl h
    show hasGroupIn s.groups t.group = true
    exact h.2.1 t (List.mem_of_find?_eq_some hf)
  · exact h

theorem inv_restart (ids : List Nat) (s : State) (h : Inv s) :
    Inv (restart_multiple ids s).state := by
  show Inv (ids.foldl restartClone s)
  induction ids generalizing s with
  | nil => exact h
  | cons i rest ih => exact ih (restartClone s i) (inv_restartClone s i h)

end Pueue
namespace Pueue

theorem countRP_cons (t : Task) (ts : List Task) (g : String) :
    countRP (t :: ts) g
      = countRP ts g + (if (t.group == g && isRP t.status) = true then 1 else 0) := by
  simp [countRP_eq_countP, List.countP_cons]

theorem spawnedTask_group (spawnOk : Nat → Bool) (t : Task) :
    (spawnedTask spawnOk t).group = t.group := by
  unfold spawnedTask; split <;> rfl

theorem spawn_in_group_other (spawnOk : Nat → Bool) (g g' : String)
    (hne : (g' == g) = false) :
    ∀ (free : Nat) (ts : List Task),
      countRP (spawn_in_group spawnOk g free ts) g' = countRP ts g' := by
  intro free ts
  induction ts generalizing free with
  | nil => cases free <;> rfl
  | cons t ts ih =>
    cases free with
    | zero => rfl
    | succ free' =>
      rw [spawn_in_group]
      split
      · rename_i hcond
        simp only [Bool.and_eq_true, beq_iff_eq] at hcond
        obtain ⟨hgg, hq⟩ := hcond
        have hgne : (t.group == g') = false := by
          rw [hgg]
          rw [beq_eq_false_iff_ne] at hne ⊢
          exact fun he => hne he.symm
        have hgne2 : ((spawnedTask spawnOk t).group == g') = false := by
          rw [spawnedTask_group]; exact hgne
        rw [countRP_cons, countRP_cons, hgne, hgne2]
        simp [ih free']
      · rw [countRP_cons, countRP_cons, ih (free' + 1)]

theorem spawn_in_group_le (spawnOk : Nat → Bool) (g : String) :
    ∀ (free : Nat) (ts : List Task),
      countRP (spawn_in_group spawnOk g free ts) g ≤ countRP ts g + free := by
  intro free ts
  induction ts generalizing free with
  | nil => cases free <;> simp [spawn_in_group, countRP]
  | cons t ts ih =>
    cases free with
    | zero => simp [spawn_in_group]
    | succ free' =>
      rw [spawn_in_group]
      split
      · rename_i hcond
        simp only [Bool.and_eq_true, beq_iff_eq] at hcond
        obtain ⟨hgg, hq⟩ := hcond
        have hqt : (t.group == g && isRP t.status) = false := by
          rw [hq]; simp [isRP]
        have hrec := ih free'
        rw [countRP_cons, countRP_cons, hqt]
        rcases hb : ((spawnedTask spawnOk t).group == g && isRP (spawnedTask spawnOk t).status)
          with _ | _ <;> simp <;> omega
      · have hrec := ih (free' + 1)
        rw [countRP_cons, countRP_cons]
        rcases hb : (t.group == g && isRP t.status)
          with _ | _ <;> simp <;> omega

theorem spawn_in_group_mem (spawnOk : Nat → Bool) (g : String) :
    ∀ (free : Nat) (ts : List Task) (t' : Task),
      t' ∈ spawn_in_group spawnOk g free ts → ∃ t ∈ ts, t'.group = t.group := by
  intro free ts
  induction ts generalizing free with
  | nil => intro t' h; cases free <;> simp [spawn_in_group] at h
  | cons t ts ih =>
    intro t' h
    cases free with
    | zero =>
      have heq : spawn_in_group spawnOk g 0 (t :: ts) = t :: ts := rfl
      rw [heq] at h
      exact ⟨t', h, rfl⟩
    | succ free' =>
      have heq : spawn_in_group spawnOk g (free' + 1) (t :: ts)
          = if t.group == g && t.status == .queued then
              spawnedTask spawnOk t :: spawn_in_group spawnOk g free' ts
            else t :: spawn_in_group spawnOk g (free' + 1) ts := rfl
      rw [heq] at h
      split at h
      · rcases List.mem_cons.mp h with h | h
        · exact ⟨t, List.mem_cons_self t ts, by rw [h, spawnedTask_group]⟩
        · obtain ⟨u, hu, he⟩ := ih free' t' h
          exact ⟨u, List.mem_cons_of_mem t hu, he⟩
      · rcases List.mem_cons.mp h with h | h
        · exact ⟨t, List.mem_cons_self t ts, by rw [h]⟩
        · obtain ⟨u, hu, he⟩ := ih (free' + 1) t' h
          exact ⟨u, List.mem_cons_of_mem t hu, he⟩

theorem spawn_fold_other (spawnOk : Nat → Bool) :
    ∀ (gs : List (String × Group)) (ts : List Task) (g' : String),
      (∀ p ∈ gs, (g' == p.1) = false) →
      countRP (gs.foldl (spawnStepFold spawnOk) ts) g' = countRP ts g' := by
  intro gs
  induction gs with
  | nil => intro ts g' _; rfl
  | cons q rest ih =>
    intro ts g' hne
    rw [List.foldl_cons]
    rw [ih (spawnStepFold spawnOk ts q) g' (fun p hp => hne p (List.mem_cons_of_mem q hp))]
    unfold spawnStepFold
    split
    · exact spawn_in_group_other spawnOk q.1 g' (hne q (List.mem_cons_self q rest)) _ ts
    · rfl

theorem spawn_fold_mem (spawnOk : Nat → Bool) :
    ∀ (gs : List (String × Group)) (ts : List Task) (t' : Task),
      t' ∈ gs.foldl (spawnStepFold spawnOk) ts → ∃ t ∈ ts, t'.group = t.group := by
  intro gs
  induction gs with
  | nil => intro ts t' h; exact ⟨t', h, rfl⟩
  | cons q rest ih =>
    intro ts t' h
    rw [List.foldl_cons] at h
    obtain ⟨u, hu, he⟩ := ih (spawnStepFold spawnOk ts q) t' h
    unfold spawnStepFold at hu
    split at hu
    · obtain ⟨v, hv, he2⟩ := spawn_in_group_mem spawnOk q.1 _ ts u hu
      exact ⟨v, hv, he.trans he2⟩
    · exact ⟨u, hu, he⟩

theorem nodupKeys_head (q : String × Group) (rest : List (String × Group))
    (h : nodupKeys (q :: rest) = true) :
    (∀ r ∈ rest, (r.1 == q.1) = false) ∧ nodupKeys rest = true := by
  simp only [nodupKeys, Bool.and_eq_true, Bool.not_eq_true'] at h
  obtain ⟨h1, h2⟩ := h
  refine ⟨?_, h2⟩
  intro r hr
  rcases hb : (r.1 == q.1) with _ | _
  · rfl
  · exfalso
    have : rest.any (fun x => x.1 == q.1) = true := by
      rw [List.any_eq_true]; exact ⟨r, hr, hb⟩
    rw [this] at h1
    exact absurd h1 (by decide)

theorem spawn_fold_bound (spawnOk : Nat → Bool) :
    ∀ (gs : List (String × Group)) (ts : List Task),
      nodupKeys gs = true →
      (∀ p ∈ gs, countRP ts p.1 ≤ p.2.parallelLimit) →
      ∀ p ∈ gs, countRP (gs.foldl (spawnStepFold spawnOk) ts) p.1 ≤ p.2.parallelLimit := by
  intro gs
  induction gs with
  | nil => intro ts _ _ p hp; cases hp
  | cons q rest ih =>
    intro ts hnd hb p hp
    obtain ⟨hne, hndr⟩ := nodupKeys_head q rest hnd
    rw [List.foldl_cons]
    have hq1 : countRP (spawnStepFold spawnOk ts q) q.1 ≤ q.2.parallelLimit := by
      unfold spawnStepFold
      split
      · have hle := spawn_in_group_le spawnOk q.1 (q.2.parallelLimit - countRP ts q.1) ts
        have hcnt := hb q (List.mem_cons_self q rest)
        omega
      · exact hb q (List.mem_cons_self q rest)
    have hrest : ∀ r ∈ rest, countRP (spawnStepFold spawnOk ts q) r.1 ≤ r.2.parallelLimit := by
      intro r hr
      have heq : countRP (spawnStepFold spawnOk ts q) r.1 = countRP ts r.1 := by
        unfold spawnStepFold
        split
        · exact spawn_in_group_other spawnOk q.1 r.1 (hne r hr) _ ts
        · rfl
      rw [heq]
      exact hb r (List.mem_cons_of_mem q hr)
    rcases List.mem_cons.mp hp with hp | hp
    · subst hp
      have heq2 : countRP (rest.foldl (spawnStepFold spawnOk) (spawnStepFold spawnOk ts p)) p.1
          = countRP (spawnStepFold spawnOk ts p) p.1 := by
        apply spawn_fold_other
        intro r hr
        have := hne r hr
        rw [beq_eq_false_iff_ne] at this ⊢
        exact fun he => this he.symm
      rw [heq2]
      exact hq1
    · exact ih (spawnStepFold spawnOk ts q) hndr hrest p hp

theorem inv_spawn_step (spawnOk : Nat → Bool) (s : State) (h : Inv s) :
    Inv (spawn_step spawnOk s) := by
  obtain ⟨h1, h2, h3⟩ := h
  refine ⟨h1, ?_, ?_⟩
  · intro t ht
    obtain ⟨u, hu, he⟩ := spawn_fold_mem spawnOk s.groups s.tasks t ht
    show hasGroupIn s.groups t.group = true
    rw [he]
    exact h2 u hu
  · intro p hp
    exact spawn_fold_bound spawnOk s.groups s.tasks h1 h3 p hp

end Pueue
namespace Pueue

theorem inv_promote_stashed (now : Nat) (s : State) (h : Inv s) :
    Inv (promote_stashed now s) := by
  refine Inv_mapTasks s _ ?_ ?_ h
  · intro t; (try dsimp only); (repeat' split) <;> rfl
  · intro t ht
    split at ht
    · split at ht
      · simp [isRP] at ht
      · exact ht
    · exact ht

theorem inv_resolve_deps (s : State) (h : Inv s) : Inv (resolve_deps s) := by
  refine Inv_mapTasks s _ ?_ ?_ h
  · intro t; (try dsimp only); (repeat' split) <;> rfl
  · intro t ht
    split at ht
    · split at ht
      · simp [isRP] at ht
      · split at ht
        · simp [isRP] at ht
        · exact ht
    · exact ht

theorem inv_reap (finished : Nat → Option TaskResult) (s : State) (h : Inv s) :
    Inv (reap finished s) := by
  refine Inv_mapTasks s _ ?_ ?_ h
  · intro t; (try dsimp only); (repeat' split) <;> rfl
  · intro t ht
    split at ht
    · split at ht
      · simp [isRP] at ht
      · exact ht
    · exact ht

theorem inv_setGroupStatus (s : State) (gs : GroupStatus) (sel : TaskSelection)
    (f : Task → Task)
    (hg : ∀ t, (f t).group = t.group)
    (hs : ∀ t, isRP (f t).status = true → isRP t.status = true)
    (h : Inv s) :
    Inv { s with tasks := s.tasks.map f, groups := setGroupStatus gs sel s.groups } := by
  cases sel with
  | taskIds ids =>
    show Inv { s with tasks := s.tasks.map f, groups := s.groups }
    exact Inv_mapTasks s f hg hs h
  | group g =>
    refine Inv_mapBoth s f _ hg hs ?_ ?_ h
    · intro p; (try dsimp only); split <;> rfl
    · intro p; (try dsimp only); split <;> rfl
  | all =>
    refine Inv_mapBoth s f _ hg hs ?_ ?_ h
    · intro p; rfl
    · intro p; rfl

theorem inv_process_ctrl (s : State) (m : Message)
    (hnf : ∀ ids, m ≠ Message.start (.taskIds ids))
    (h : Inv s) : Inv (process_ctrl s m) := by
  cases m <;> try exact h
  case start sel =>
    cases sel with
    | taskIds ids => exact absurd rfl (hnf ids)
    | group g =>
      refine inv_setGroupStatus s .running (.group g) _ ?_ ?_ h
      · intro t; (try dsimp only); (repeat' split) <;> rfl
      · intro t ht
        split at ht
        · split at ht
          · rename_i hst; rw [hst]; rfl
          · exact ht
          · exact ht
        · exact ht
    | all =>
      refine inv_setGroupStatus s .running .all _ ?_ ?_ h
      · intro t; (try dsimp only); (repeat' split) <;> rfl
      · intro t ht
        split at ht
        · split at ht
          · rename_i hst; rw [hst]; rfl
          · exact ht
          · exact ht
        · exact ht
  case pause sel =>
    refine inv_setGroupStatus s .paused sel _ ?_ ?_ h
    · intro t; (try dsimp only); split <;> rfl
    · intro t ht
      split at ht
      · rename_i hcond
        simp only [Bool.and_eq_true, beq_iff_eq] at hcond
        rw [hcond.2]; rfl
      · exact ht
  case kill sel sig =>
    refine Inv_mapTasks s _ ?_ ?_ h
    · intro t; (try dsimp only); split <;> rfl
    · intro t ht
      split at ht
      · simp [isRP] at ht
      · exact ht
  case reset c =>
    obtain ⟨h1, h2, h3⟩ := h
    refine ⟨h1, ?_, ?_⟩
    · intro t ht; cases ht
    · intro p hp
      show countRP [] p.1 ≤ p.2.parallelLimit
      simp [countRP]

theorem inv_drain (msgs : List Message) (s : State)
    (hnf : ∀ m ∈ msgs, ∀ ids, m ≠ Message.start (.taskIds ids))
    (h : Inv s) : Inv (drain msgs s) := by
  induction msgs generalizing s with
  | nil => exact h
  | cons m rest ih =>
    exact ih (process_ctrl s m)
      (fun x hx => hnf x (List.mem_cons_of_mem m hx))
      (inv_process_ctrl s m (hnf m (List.mem_cons_self m rest)) h)

theorem inv_tick (now : Nat) (msgs : List Message) (spawnOk : Nat → Bool)
    (finished : Nat → Option TaskResult) (s : State)
    (hnf : ∀ m ∈ msgs, ∀ ids, m ≠ Message.start (.taskIds ids))
    (h : Inv s) : Inv (tick now msgs spawnOk finished s) :=
  inv_reap finished _
    (inv_spawn_step spawnOk _
      (inv_drain msgs _ hnf
        (inv_resolve_deps _ (inv_promote_stashed now s h))))

end Pueue
namespace Pueue

/-- C6 counterexample part: from a reachable well-formed state whose group
is exactly full, a successful `Parallel` request lowering the limit leaves
more `Running`+`Paused` tasks than the new limit, so the handler does not
preserve the bound. -/
theorem c6_parallel_breaks_bound_cx :
    Inv runningPair
    ∧ (handle_message (Message.parallel "default" 1) runningPair).response
        = Message.success "Parallel tasks setting adjusted"
    ∧ ¬ Inv (handle_message (Message.parallel "default" 1) runningPair).state :=
  ⟨by decide, by decide, by decide⟩

/-- C6 (amended): the per-group bound `Running + Paused ≤ parallel_limit` is
preserved by every dispatcher handler except a `Parallel` request lowering
the limit below the group's current slot occupancy, and by every scheduler
tick whose drained control messages contain no single-task start (which
spawns immediately, bypassing the limit). -/
theorem c6_bound_preserved_amended :
    (∀ (m : Message) (s : State), Inv s →
      (∀ g n, m = Message.parallel g n → countRP s.tasks g ≤ n) →
      Inv (handle_message m s).state)
    ∧ (∀ (now : Nat) (msgs : List Message) (spawnOk : Nat → Bool)
        (finished : Nat → Option TaskResult) (s : State), Inv s →
        (∀ m ∈ msgs, ∀ ids, m ≠ Message.start (.taskIds ids)) →
        Inv (tick now msgs spawnOk finished s)) := by
  constructor
  · intro m s h hpar
    cases m <;> try exact h
    case add am => exact inv_add am s h
    case clean so g => exact inv_clean so g s h
    case edit id cmd => exact inv_edit id cmd s h
    case editRequest id => exact inv_edit_request id s h
    case editRestore id => exact inv_edit_restore id s h
    case enqueue ids ea => exact inv_enqueue ids ea s h
    case group gm => exact inv_group gm s h
    case kill sel sig =>
      show Inv (kill sel sig s).state
      unfold kill; split <;> exact h
    case parallel g n => exact inv_parallel g n s h (hpar g n rfl)
    case pause sel =>
      show Inv (pause sel s).state
      unfold pause; split <;> exact h
    case remove ids => exact inv_remove ids s h
    case restart ids => exact inv_restart ids s h
    case send id inp =>
      show Inv (send id inp s).state
      unfold send; (repeat' split) <;> exact h
    case start sel =>
      show Inv (start sel s).state
      unfold start; split <;> exact h
    case stash ids => exact inv_stash ids s h
    case switch a b => exact inv_switch a b s h
  · intro now msgs spawnOk finished s h hnf
    exact inv_tick now msgs spawnOk finished s hnf h

/-- Witness for C6 (amended) at a concrete handler call and a concrete
scheduler tick. -/
theorem c6_bound_preserved_witness :
    Inv (handle_message (Message.stash [0]) s0).state
    ∧ Inv (tick 0 [Message.pause .all] (fun _ => true) (fun _ => none) s0) := by
  constructor
  · exact c6_bound_preserved_amended.1 (Message.stash [0]) s0 (by decide)
      (by intro g n hgn; cases hgn)
  · exact c6_bound_preserved_amended.2 0 [Message.pause .all] (fun _ => true) (fun _ => none)
      s0 (by decide)
      (by intro m hm ids; rw [List.mem_singleton] at hm; subst hm; intro hcon; cases hcon)

end Pueue
